import Mathlib

/-!
Shallow embedding of the `txh` transaction-processing engine.

Sources embedded:
* `src/client.rs`   — `ClientState`, `Transition`, `ClientState::apply`
* `src/transaction.rs` — `Transaction` (`Deposit` / `Withdrawal` records)
* `src/event.rs`    — `Event`
* `src/state.rs`    — `State`, `State::handle`, `Error::DuplicateTxId`

Modelling choices:
* `ClientId` (`u16`) and `TxId` (`u32`) are only compared for equality, so they
  are embedded as `Nat`.
* `rust_decimal::Decimal` is exact base-10 fixed point arithmetic; the
  operations used by the engine (`+`, `-`, `<`) are embedded over `Rat`.
* Rust's `HashMap<TxId, Transaction>` is embedded as an association list with
  `lookupTx` (first match), `insertTx` (replace the first entry with the key,
  else append; Rust's `HashMap::insert` returning the old value is recovered by
  an explicit `lookupTx` before inserting) and `setDispute` (in-place flag
  update through `get_mut`).
* Rust's `HashMap<ClientId, ClientState>` is embedded as a partial function
  `ClientId → Option ClientState`; `entry(client).or_default()` first
  materialises a `Default::default()` entry and the arm then overwrites it on
  transition success.
* `fn handle(&mut self, event) -> Result<(), Error>` mutates `self` even on the
  error path (the `?` fires after the stores were updated), so it is embedded
  as `State → Event → State × Option StateError` with `none` playing `Ok(())`.
-/

/-- `type ClientId = u16` (only equality is used). -/
abbrev ClientId := Nat

/-- `type TxId = u32` (only equality is used). -/
abbrev TxId := Nat

/-- `client.rs`: the private fields of `ClientState`. -/
structure ClientState where
  frozen : Bool
  available : Rat
  held : Rat
deriving DecidableEq, Repr

/-- `ClientState` derives `Default` in Rust: all fields zero / false. -/
def ClientState.default : ClientState :=
  { frozen := false, available := 0, held := 0 }

/-- `client.rs`: `ClientState::total`, computed from `available` and `held`. -/
def ClientState.total (s : ClientState) : Rat :=
  s.available + s.held

/-- `client.rs`: `enum Error { ClientFrozen, InsufficientFunds }`. -/
inductive ClientError where
  | ClientFrozen
  | InsufficientFunds
deriving DecidableEq, Repr

/-- `client.rs`: `enum Transition`. -/
inductive Transition where
  | Deposit (amount : Rat)
  | Withdrawal (amount : Rat)
  | DisputeDeposit (amount : Rat)
  | DisputeWithdrawal (amount : Rat)
  | Resolve (amount : Rat)
  | Chargeback
deriving DecidableEq, Repr

/-- `client.rs`: `ClientState::apply`.  The Rust `match` tests `frozen: true`
first for every transition, then dispatches on the transition kind; failing
branches return the untouched state to the caller (`self` is taken by value). -/
def ClientState.apply (s : ClientState) (t : Transition) : Except ClientError ClientState :=
  if s.frozen then
    .error .ClientFrozen
  else
    match t with
    | .Chargeback => .ok { s with frozen := true }
    | .Deposit amount => .ok { s with available := s.available + amount }
    | .Withdrawal amount =>
        if s.available < amount then .error .InsufficientFunds
        else .ok { s with available := s.available - amount }
    | .DisputeDeposit amount =>
        if s.available < amount then .error .InsufficientFunds
        else .ok { s with available := s.available - amount, held := s.held + amount }
    | .DisputeWithdrawal amount => .ok { s with held := s.held + amount }
    | .Resolve amount =>
        .ok { s with available := s.available + amount, held := s.held - amount }

/-- `transaction.rs`: tag distinguishing the `Transaction::Deposit` and
`Transaction::Withdrawal` variants (whose payload structs `Deposit` and
`Withdrawal` carry identical fields `client`, `amount`, `has_dispute`). -/
inductive TxKind where
  | deposit
  | withdrawal
deriving DecidableEq, Repr

/-- `transaction.rs`: a stored transaction record; the Rust enum
`Transaction` with its per-variant payload flattened into a `kind` tag plus
the three shared fields. -/
structure Transaction where
  kind : TxKind
  client : ClientId
  amount : Rat
  has_dispute : Bool
deriving DecidableEq, Repr

/-- `transaction.rs`: `Transaction::deposit` (fresh record, no dispute). -/
def Transaction.deposit (client : ClientId) (amount : Rat) : Transaction :=
  { kind := .deposit, client := client, amount := amount, has_dispute := false }

/-- `transaction.rs`: `Transaction::withdrawal` (fresh record, no dispute). -/
def Transaction.withdrawal (client : ClientId) (amount : Rat) : Transaction :=
  { kind := .withdrawal, client := client, amount := amount, has_dispute := false }

/-- `event.rs`: `enum Event`. -/
inductive Event where
  | Deposit (client : ClientId) (tx : TxId) (amount : Rat)
  | Withdrawal (client : ClientId) (tx : TxId) (amount : Rat)
  | Dispute (client : ClientId) (tx : TxId)
  | Resolve (client : ClientId) (tx : TxId)
  | Chargeback (client : ClientId) (tx : TxId)
deriving DecidableEq, Repr

/-- `state.rs`: `enum Error { DuplicateTxId(TxId) }`. -/
inductive StateError where
  | DuplicateTxId (tx : TxId)
deriving DecidableEq, Repr

/-- The transaction ledger: embedding of `HashMap<TxId, Transaction>`. -/
abbrev Transfers := List (TxId × Transaction)

/-- `HashMap::get` / `get_mut` lookup: first entry with the key. -/
def lookupTx : Transfers → TxId → Option Transaction
  | [], _ => none
  | (k, v) :: rest, tx => if k = tx then some v else lookupTx rest tx

/-- `HashMap::insert`: replace the (first) entry with the key, else append. -/
def insertTx (tx : TxId) (t : Transaction) : Transfers → Transfers
  | [] => [(tx, t)]
  | (k, v) :: rest =>
      if k = tx then (tx, t) :: rest else (k, v) :: insertTx tx t rest

/-- In-place update of the `has_dispute` flag through `get_mut`:
`deposit.has_dispute = b` on the looked-up record. -/
def setDispute (ts : Transfers) (tx : TxId) (b : Bool) : Transfers :=
  match ts with
  | [] => []
  | (k, v) :: rest =>
      if k = tx then (k, { v with has_dispute := b }) :: rest
      else (k, v) :: setDispute rest tx b

/-- `state.rs`: the two stores owned by `State`. -/
structure State where
  transfers : Transfers
  client_states : ClientId → Option ClientState

/-- `State::new`: both stores empty. -/
def State.new : State :=
  { transfers := [], client_states := fun _ => none }

/-- Point update of the client-state store (`HashMap` entry write). -/
def updateClient (m : ClientId → Option ClientState) (c : ClientId) (v : ClientState) :
    ClientId → Option ClientState :=
  fun c' => if c' = c then some v else m c'

/-- `self.client_states.entry(client).or_default()`: the state the entry API
hands to the arm (the existing state, or `Default::default()`). -/
def clientOrDefault (s : State) (c : ClientId) : ClientState :=
  (s.client_states c).getD ClientState.default

/-- `state.rs`: `State::handle`.  Returns the mutated state together with
`none` for `Ok(())` or `some e` for `Err(e)`; on the `Err` path the stores
have already been updated exactly as in the Rust code (the `?` operator fires
after `*state = next_state` and after `transfers.insert` replaced the record). -/
def State.handle (s : State) (e : Event) : State × Option StateError :=
  match e with
  | .Deposit client tx amount =>
      -- `entry(client).or_default()` materialises the entry up front.
      let st := clientOrDefault s client
      let s1 : State := { s with client_states := updateClient s.client_states client st }
      match st.apply (.Deposit amount) with
      | .ok next_state =>
          let s2 : State :=
            { s1 with client_states := updateClient s1.client_states client next_state }
          let old := lookupTx s2.transfers tx
          let s3 : State :=
            { s2 with transfers := insertTx tx (Transaction.deposit client amount) s2.transfers }
          match old with
          | some _ => (s3, some (.DuplicateTxId tx))
          | none => (s3, none)
      | .error _ => (s1, none)
  | .Withdrawal client tx amount =>
      let st := clientOrDefault s client
      let s1 : State := { s with client_states := updateClient s.client_states client st }
      match st.apply (.Withdrawal amount) with
      | .ok next_state =>
          let s2 : State :=
            { s1 with client_states := updateClient s1.client_states client next_state }
          let old := lookupTx s2.transfers tx
          let s3 : State :=
            { s2 with transfers := insertTx tx (Transaction.withdrawal client amount) s2.transfers }
          match old with
          | some _ => (s3, some (.DuplicateTxId tx))
          | none => (s3, none)
      | .error _ => (s1, none)
  | .Chargeback client tx =>
      -- Assumption in the source: chargebacks only make sense for deposits.
      match lookupTx s.transfers tx with
      | some t =>
          match t.kind with
          | .deposit =>
              if client ≠ t.client then (s, none)
              else
                match s.client_states client with
                | some state =>
                    match state.apply .Chargeback with
                    | .ok next_state =>
                        ({ s with client_states := updateClient s.client_states client next_state },
                         none)
                    | .error _ => (s, none)
                | none => (s, none)
          | .withdrawal => (s, none)
      | none => (s, none)
  | .Dispute client tx =>
      match lookupTx s.transfers tx with
      | some t =>
          match t.kind with
          | .deposit =>
              if client ≠ t.client ∨ t.has_dispute then (s, none)
              else
                match s.client_states client with
                | some state =>
                    match state.apply (.DisputeDeposit t.amount) with
                    | .ok next_state =>
                        ({ s with
                            client_states := updateClient s.client_states client next_state,
                            transfers := setDispute s.transfers tx true },
                         none)
                    | .error _ => (s, none)
                | none => (s, none)
          | .withdrawal =>
              if client ≠ t.client ∨ t.has_dispute then (s, none)
              else
                match s.client_states client with
                | some state =>
                    match state.apply (.DisputeWithdrawal t.amount) with
                    | .ok next_state =>
                        ({ s with
                            client_states := updateClient s.client_states client next_state,
                            transfers := setDispute s.transfers tx true },
                         none)
                    | .error _ => (s, none)
                | none => (s, none)
      | none => (s, none)
  | .Resolve resolve_client tx =>
      -- The Rust arm matches both variants with one or-pattern binding
      -- `client`, `has_dispute`, `amount`.
      match lookupTx s.transfers tx with
      | some t =>
          if resolve_client ≠ t.client ∨ ¬t.has_dispute then (s, none)
          else
            match s.client_states t.client with
            | some state =>
                match state.apply (.Resolve t.amount) with
                | .ok next_state =>
                    ({ s with
                        client_states := updateClient s.client_states t.client next_state,
                        transfers := setDispute s.transfers tx false },
                     none)
                | .error _ => (s, none)
            | none => (s, none)
      | none => (s, none)

/-- The processing loop of `main` / `handle_multiple`: events are handled in
input order; a run-aborting error stops the run (the `?` propagates). -/
def runEvents : State → List Event → State × Option StateError
  | s, [] => (s, none)
  | s, e :: rest =>
      match s.handle e with
      | (s', none) => runEvents s' rest
      | (s', some err) => (s', some err)

/-- The state a deposit/withdrawal arm leaves behind when the transition is
rejected: `entry(client).or_default()` has materialised the entry. -/
def materializeClient (s : State) (c : ClientId) : State :=
  { s with client_states := updateClient s.client_states c (clientOrDefault s c) }

/-- The dispute transition the `Dispute` arm applies, matching the record
kind (`DisputeDeposit` for deposits, `DisputeWithdrawal` for withdrawals),
always with the record's stored amount. -/
def disputeTransition (t : Transaction) : Transition :=
  match t.kind with
  | .deposit => .DisputeDeposit t.amount
  | .withdrawal => .DisputeWithdrawal t.amount

/-- The contribution of a stored record to its owner's disputed-funds total:
its amount while `has_dispute` is set, `0` otherwise. -/
def contrib (c : ClientId) (t : Transaction) : Rat :=
  if t.client = c ∧ t.has_dispute = true then t.amount else 0

/-- Total amount of ledger records of client `c` currently under dispute. -/
def heldSum (ts : Transfers) (c : ClientId) : Rat :=
  (ts.map fun p => contrib c p.2).sum

/-- All stored record amounts are non-negative. -/
def AmountsNonneg (ts : Transfers) : Prop :=
  ∀ p ∈ ts, 0 ≤ p.2.amount

/-- Deposit and withdrawal events carry a non-negative amount. -/
def EventAmountsNonneg (e : Event) : Prop :=
  match e with
  | .Deposit _ _ a => 0 ≤ a
  | .Withdrawal _ _ a => 0 ≤ a
  | _ => True

/-- The funds invariant maintained by `State.handle`: record amounts are
non-negative, every account's `available` is non-negative, and every
account's `held` dominates the disputed total of its records. -/
def FundsInv (s : State) : Prop :=
  AmountsNonneg s.transfers
    ∧ (∀ c, 0 ≤ (clientOrDefault s c).available)
    ∧ (∀ c, heldSum s.transfers c ≤ (clientOrDefault s c).held)

/-- The business-rule rejection conditions of the engine, per event kind:
insufficient funds / frozen account for funds events, and unknown id,
mismatched client, wrong dispute-flag state, withdrawal-kind chargeback or a
failing account transition for the dispute family. -/
def BusinessRejected (s : State) (e : Event) : Prop :=
  match e with
  | .Deposit c _ _ => (clientOrDefault s c).frozen = true
  | .Withdrawal c _ a =>
      (clientOrDefault s c).frozen = true ∨ (clientOrDefault s c).available < a
  | .Dispute c tx =>
      match lookupTx s.transfers tx with
      | none => True
      | some t => t.client ≠ c ∨ t.has_dispute = true
          ∨ (∃ st, s.client_states c = some st
              ∧ (st.frozen = true ∨ (t.kind = .deposit ∧ st.available < t.amount)))
  | .Resolve c tx =>
      match lookupTx s.transfers tx with
      | none => True
      | some t => t.client ≠ c ∨ t.has_dispute = false
          ∨ (∃ st, s.client_states c = some st ∧ st.frozen = true)
  | .Chargeback c tx =>
      match lookupTx s.transfers tx with
      | none => True
      | some t => t.kind = .withdrawal ∨ t.client ≠ c
          ∨ (∃ st, s.client_states c = some st ∧ st.frozen = true)

/-- The state a rejected event leaves behind: unchanged, except that a
rejected deposit/withdrawal has materialised the client's (default) entry. -/
def rejectionResult (s : State) (e : Event) : State :=
  match e with
  | .Deposit c _ _ => materializeClient s c
  | .Withdrawal c _ _ => materializeClient s c
  | _ => s

/-- A concrete state for the chargeback witness: client 7 with one deposit
and one withdrawal record (the deposit not under dispute). -/
def sCb : State :=
  { transfers := [(0, Transaction.deposit 7 100), (1, Transaction.withdrawal 7 30)],
    client_states := updateClient (fun _ => none) 7 ⟨false, 70, 0⟩ }

/-- A concrete state for the dispute-deposit witness: client 3 owns an
undisputed deposit of 50, an already-disputed deposit of 10 and an
undisputed deposit of 1000, with `available = 60`. -/
def sD8 : State :=
  { transfers := [(0, ⟨.deposit, 3, 50, false⟩), (1, ⟨.deposit, 3, 10, true⟩),
                  (2, ⟨.deposit, 3, 1000, false⟩)],
    client_states := updateClient (fun _ => none) 3 ⟨false, 60, 10⟩ }

/-- A concrete state for the dispute-withdrawal witness: client 2 owns one
undisputed withdrawal record of 30. -/
def sD9 : State :=
  { transfers := [(4, ⟨.withdrawal, 2, 30, false⟩)],
    client_states := updateClient (fun _ => none) 2 ⟨false, 20, 0⟩ }

/-- A concrete state for the resolve witness: client 5 owns a disputed
deposit of 40 (`held = 40`) and an undisputed deposit of 8. -/
def sRv : State :=
  { transfers := [(0, ⟨.deposit, 5, 40, true⟩), (1, ⟨.deposit, 5, 8, false⟩)],
    client_states := updateClient (fun _ => none) 5 ⟨false, 10, 40⟩ }

/-- A concrete state for the duplicate-id witnesses: transaction 0 already
recorded as a deposit of 100 for client 1. -/
def sDup : State :=
  { transfers := [(0, Transaction.deposit 1 100)],
    client_states := updateClient (fun _ => none) 1 ⟨false, 100, 0⟩ }

/-! ### Helper lemmas about the stores -/

theorem updateClient_self (m : ClientId → Option ClientState) (c : ClientId) (v : ClientState) :
    updateClient m c v c = some v := by
  simp [updateClient]

theorem updateClient_other (m : ClientId → Option ClientState) (c c' : ClientId)
    (v : ClientState) (h : c' ≠ c) : updateClient m c v c' = m c' := by
  simp [updateClient, h]

theorem updateClient_updateClient (m : ClientId → Option ClientState) (c : ClientId)
    (v w : ClientState) : updateClient (updateClient m c v) c w = updateClient m c w := by
  funext c'
  by_cases h : c' = c <;> simp [updateClient, h]

theorem materializeClient_of_isSome (s : State) (c : ClientId)
    (h : (s.client_states c).isSome) : materializeClient s c = s := by
  obtain ⟨st, hst⟩ := Option.isSome_iff_exists.mp h
  have : updateClient s.client_states c (clientOrDefault s c) = s.client_states := by
    funext c'
    by_cases hc : c' = c
    · subst hc; simp [updateClient, clientOrDefault, hst]
    · simp [updateClient, hc]
  simp [materializeClient, this]

theorem clientOrDefault_materialize (s : State) (c c' : ClientId) :
    clientOrDefault (materializeClient s c) c' = clientOrDefault s c' := by
  by_cases h : c' = c
  · subst h; simp [clientOrDefault, materializeClient, updateClient]
  · simp [clientOrDefault, materializeClient, updateClient, h]

/-! ### Inversion lemmas for `ClientState.apply` -/

theorem apply_ok_not_frozen {st nx : ClientState} {t : Transition}
    (h : st.apply t = .ok nx) : st.frozen = false := by
  by_cases hf : st.frozen <;> simp [ClientState.apply, hf] at *

theorem apply_frozen (st : ClientState) (t : Transition) (h : st.frozen = true) :
    st.apply t = .error .ClientFrozen := by
  simp [ClientState.apply, h]

theorem apply_deposit_ok {st nx : ClientState} {a : Rat}
    (h : st.apply (.Deposit a) = .ok nx) :
    st.frozen = false ∧ nx = { st with available := st.available + a } := by
  obtain ⟨f, av, hd⟩ := st
  have hf := apply_ok_not_frozen h
  subst hf
  simp [ClientState.apply] at h
  exact ⟨rfl, h.symm⟩

theorem apply_deposit_of_not_frozen (st : ClientState) (a : Rat) (hf : st.frozen = false) :
    st.apply (.Deposit a) = .ok { st with available := st.available + a } := by
  simp [ClientState.apply, hf]

theorem apply_withdrawal_ok {st nx : ClientState} {a : Rat}
    (h : st.apply (.Withdrawal a) = .ok nx) :
    st.frozen = false ∧ ¬st.available < a ∧ nx = { st with available := st.available - a } := by
  obtain ⟨f, av, hd⟩ := st
  have hf := apply_ok_not_frozen h
  subst hf
  simp only [ClientState.apply, Bool.false_eq_true, if_false] at h
  by_cases hlt : av < a
  · simp [hlt] at h
  · simp [hlt] at h
    exact ⟨rfl, hlt, h.symm⟩

theorem apply_withdrawal_of_guards (st : ClientState) (a : Rat) (hf : st.frozen = false)
    (hlt : ¬st.available < a) :
    st.apply (.Withdrawal a) = .ok { st with available := st.available - a } := by
  simp [ClientState.apply, hf, hlt]

theorem apply_dispute_deposit_ok {st nx : ClientState} {a : Rat}
    (h : st.apply (.DisputeDeposit a) = .ok nx) :
    st.frozen = false ∧ ¬st.available < a ∧
      nx = { st with available := st.available - a, held := st.held + a } := by
  obtain ⟨f, av, hd⟩ := st
  have hf := apply_ok_not_frozen h
  subst hf
  simp only [ClientState.apply, Bool.false_eq_true, if_false] at h
  by_cases hlt : av < a
  · simp [hlt] at h
  · simp [hlt] at h
    exact ⟨rfl, hlt, h.symm⟩

theorem apply_dispute_deposit_of_guards (st : ClientState) (a : Rat) (hf : st.frozen = false)
    (hlt : ¬st.available < a) :
    st.apply (.DisputeDeposit a)
      = .ok { st with available := st.available - a, held := st.held + a } := by
  simp [ClientState.apply, hf, hlt]

theorem apply_dispute_withdrawal_ok {st nx : ClientState} {a : Rat}
    (h : st.apply (.DisputeWithdrawal a) = .ok nx) :
    st.frozen = false ∧ nx = { st with held := st.held + a } := by
  obtain ⟨f, av, hd⟩ := st
  have hf := apply_ok_not_frozen h
  subst hf
  simp [ClientState.apply] at h
  exact ⟨rfl, h.symm⟩

theorem apply_dispute_withdrawal_of_not_frozen (st : ClientState) (a : Rat)
    (hf : st.frozen = false) :
    st.apply (.DisputeWithdrawal a) = .ok { st with held := st.held + a } := by
  simp [ClientState.apply, hf]

theorem apply_resolve_ok {st nx : ClientState} {a : Rat}
    (h : st.apply (.Resolve a) = .ok nx) :
    st.frozen = false ∧ nx = { st with available := st.available + a, held := st.held - a } := by
  obtain ⟨f, av, hd⟩ := st
  have hf := apply_ok_not_frozen h
  subst hf
  simp [ClientState.apply] at h
  exact ⟨rfl, h.symm⟩

theorem apply_resolve_of_not_frozen (st : ClientState) (a : Rat) (hf : st.frozen = false) :
    st.apply (.Resolve a) = .ok { st with available := st.available + a, held := st.held - a } := by
  simp [ClientState.apply, hf]

theorem apply_chargeback_ok {st nx : ClientState}
    (h : st.apply .Chargeback = .ok nx) :
    st.frozen = false ∧ nx = { st with frozen := true } := by
  obtain ⟨f, av, hd⟩ := st
  have hf := apply_ok_not_frozen h
  subst hf
  simp [ClientState.apply] at h
  exact ⟨rfl, h.symm⟩

theorem apply_chargeback_of_not_frozen (st : ClientState) (hf : st.frozen = false) :
    st.apply .Chargeback = .ok { st with frozen := true } := by
  simp [ClientState.apply, hf]

/-! ### Branch characterizations of `State.handle` -/

theorem handle_deposit_eq_ok (s : State) (c : ClientId) (tx : TxId) (a : Rat) (nx : ClientState)
    (h : (clientOrDefault s c).apply (.Deposit a) = .ok nx) :
    s.handle (.Deposit c tx a)
      = ({ transfers := insertTx tx (Transaction.deposit c a) s.transfers,
           client_states := updateClient s.client_states c nx },
         match lookupTx s.transfers tx with
         | some _ => some (.DuplicateTxId tx)
         | none => none) := by
  cases hl : lookupTx s.transfers tx <;>
    simp [State.handle, h, hl, updateClient_updateClient]

theorem handle_deposit_eq_error (s : State) (c : ClientId) (tx : TxId) (a : Rat)
    (err : ClientError) (h : (clientOrDefault s c).apply (.Deposit a) = .error err) :
    s.handle (.Deposit c tx a) = (materializeClient s c, none) := by
  simp [State.handle, h, materializeClient]

theorem handle_withdrawal_eq_ok (s : State) (c : ClientId) (tx : TxId) (a : Rat)
    (nx : ClientState) (h : (clientOrDefault s c).apply (.Withdrawal a) = .ok nx) :
    s.handle (.Withdrawal c tx a)
      = ({ transfers := insertTx tx (Transaction.withdrawal c a) s.transfers,
           client_states := updateClient s.client_states c nx },
         match lookupTx s.transfers tx with
         | some _ => some (.DuplicateTxId tx)
         | none => none) := by
  cases hl : lookupTx s.transfers tx <;>
    simp [State.handle, h, hl, updateClient_updateClient]

theorem handle_withdrawal_eq_error (s : State) (c : ClientId) (tx : TxId) (a : Rat)
    (err : ClientError) (h : (clientOrDefault s c).apply (.Withdrawal a) = .error err) :
    s.handle (.Withdrawal c tx a) = (materializeClient s c, none) := by
  simp [State.handle, h, materializeClient]

theorem handle_chargeback_of_lookup_none (s : State) (c : ClientId) (tx : TxId)
    (h : lookupTx s.transfers tx = none) :
    s.handle (.Chargeback c tx) = (s, none) := by
  simp [State.handle, h]

theorem handle_chargeback_of_withdrawal_kind (s : State) (c : ClientId) (tx : TxId)
    (t : Transaction) (h : lookupTx s.transfers tx = some t) (hk : t.kind = .withdrawal) :
    s.handle (.Chargeback c tx) = (s, none) := by
  simp [State.handle, h, hk]

theorem handle_chargeback_of_mismatch (s : State) (c : ClientId) (tx : TxId)
    (t : Transaction) (h : lookupTx s.transfers tx = some t) (hc : c ≠ t.client) :
    s.handle (.Chargeback c tx) = (s, none) := by
  cases hk : t.kind <;> simp [State.handle, h, hk, hc]

theorem handle_chargeback_of_no_state (s : State) (c : ClientId) (tx : TxId)
    (t : Transaction) (h : lookupTx s.transfers tx = some t)
    (hs : s.client_states c = none) :
    s.handle (.Chargeback c tx) = (s, none) := by
  cases hk : t.kind
  · by_cases hc : c = t.client
    · rw [hc] at hs
      simp [State.handle, h, hk, hc, hs]
    · simp [State.handle, h, hk, hc]
  · simp [State.handle, h, hk]

theorem handle_chargeback_of_apply_error (s : State) (c : ClientId) (tx : TxId)
    (t : Transaction) (st : ClientState) (err : ClientError)
    (h : lookupTx s.transfers tx = some t) (hs : s.client_states c = some st)
    (happ : st.apply .Chargeback = .error err) :
    s.handle (.Chargeback c tx) = (s, none) := by
  cases hk : t.kind
  · by_cases hc : c = t.client
    · rw [hc] at hs
      simp [State.handle, h, hk, hc, hs, happ]
    · simp [State.handle, h, hk, hc]
  · simp [State.handle, h, hk]

theorem handle_chargeback_eq_ok (s : State) (c : ClientId) (tx : TxId)
    (t : Transaction) (st nx : ClientState)
    (h : lookupTx s.transfers tx = some t) (hk : t.kind = .deposit) (hc : t.client = c)
    (hs : s.client_states c = some st) (happ : st.apply .Chargeback = .ok nx) :
    s.handle (.Chargeback c tx)
      = ({ s with client_states := updateClient s.client_states c nx }, none) := by
  simp [State.handle, h, hk, hc, hs, happ]

theorem handle_dispute_of_lookup_none (s : State) (c : ClientId) (tx : TxId)
    (h : lookupTx s.transfers tx = none) :
    s.handle (.Dispute c tx) = (s, none) := by
  simp [State.handle, h]

theorem handle_dispute_of_guard (s : State) (c : ClientId) (tx : TxId)
    (t : Transaction) (h : lookupTx s.transfers tx = some t)
    (hg : c ≠ t.client ∨ t.has_dispute = true) :
    s.handle (.Dispute c tx) = (s, none) := by
  cases hk : t.kind <;> simp [State.handle, h, hk, hg]

theorem handle_dispute_of_no_state (s : State) (c : ClientId) (tx : TxId)
    (t : Transaction) (h : lookupTx s.transfers tx = some t)
    (hs : s.client_states c = none) :
    s.handle (.Dispute c tx) = (s, none) := by
  cases hk : t.kind <;>
    · by_cases hc : c = t.client
      · rw [hc] at hs
        by_cases hd : t.has_dispute <;> simp [State.handle, h, hk, hc, hd, hs]
      · simp [State.handle, h, hk, hc]

theorem handle_dispute_of_apply_error (s : State) (c : ClientId) (tx : TxId)
    (t : Transaction) (st : ClientState) (err : ClientError)
    (h : lookupTx s.transfers tx = some t) (hs : s.client_states c = some st)
    (happ : st.apply (disputeTransition t) = .error err) :
    s.handle (.Dispute c tx) = (s, none) := by
  cases hk : t.kind <;>
    · simp only [disputeTransition, hk] at happ
      by_cases hc : c = t.client
      · rw [hc] at hs
        by_cases hd : t.has_dispute <;> simp [State.handle, h, hk, hc, hd, hs, happ]
      · simp [State.handle, h, hk, hc]

theorem handle_dispute_eq_ok (s : State) (c : ClientId) (tx : TxId)
    (t : Transaction) (st nx : ClientState)
    (h : lookupTx s.transfers tx = some t) (hc : t.client = c) (hd : t.has_dispute = false)
    (hs : s.client_states c = some st) (happ : st.apply (disputeTransition t) = .ok nx) :
    s.handle (.Dispute c tx)
      = ({ s with client_states := updateClient s.client_states c nx,
                  transfers := setDispute s.transfers tx true }, none) := by
  cases hk : t.kind <;>
    · simp only [disputeTransition, hk] at happ
      simp [State.handle, h, hk, hc, hd, hs, happ]

theorem handle_resolve_of_lookup_none (s : State) (c : ClientId) (tx : TxId)
    (h : lookupTx s.transfers tx = none) :
    s.handle (.Resolve c tx) = (s, none) := by
  simp [State.handle, h]

theorem handle_resolve_of_guard (s : State) (c : ClientId) (tx : TxId)
    (t : Transaction) (h : lookupTx s.transfers tx = some t)
    (hg : c ≠ t.client ∨ t.has_dispute = false) :
    s.handle (.Resolve c tx) = (s, none) := by
  rcases hg with hg | hg <;> simp [State.handle, h, hg]

theorem handle_resolve_of_no_state (s : State) (c : ClientId) (tx : TxId)
    (t : Transaction) (h : lookupTx s.transfers tx = some t)
    (hs : s.client_states t.client = none) :
    s.handle (.Resolve c tx) = (s, none) := by
  by_cases hc : c = t.client
  · by_cases hd : t.has_dispute <;> simp [State.handle, h, hc, hd, hs]
  · simp [State.handle, h, hc]

theorem handle_resolve_of_apply_error (s : State) (c : ClientId) (tx : TxId)
    (t : Transaction) (st : ClientState) (err : ClientError)
    (h : lookupTx s.transfers tx = some t) (hs : s.client_states t.client = some st)
    (happ : st.apply (.Resolve t.amount) = .error err) :
    s.handle (.Resolve c tx) = (s, none) := by
  by_cases hc : c = t.client
  · by_cases hd : t.has_dispute <;> simp [State.handle, h, hc, hd, hs, happ]
  · simp [State.handle, h, hc]

theorem handle_resolve_eq_ok (s : State) (c : ClientId) (tx : TxId)
    (t : Transaction) (st nx : ClientState)
    (h : lookupTx s.transfers tx = some t) (hc : t.client = c) (hd : t.has_dispute = true)
    (hs : s.client_states t.client = some st)
    (happ : st.apply (.Resolve t.amount) = .ok nx) :
    s.handle (.Resolve c tx)
      = ({ s with client_states := updateClient s.client_states t.client nx,
                  transfers := setDispute s.transfers tx false }, none) := by
  subst hc
  simp [State.handle, h, hd, hs, happ]

/-! ### Ledger list lemmas -/

theorem lookupTx_mem {ts : Transfers} {tx : TxId} {t : Transaction}
    (h : lookupTx ts tx = some t) : (tx, t) ∈ ts := by
  induction ts with
  | nil => simp [lookupTx] at h
  | cons p rest ih =>
      obtain ⟨k, v⟩ := p
      by_cases hk : k = tx
      · subst hk
        simp [lookupTx] at h
        subst h
        exact List.mem_cons_self _ _
      · simp [lookupTx, hk] at h
        exact List.mem_cons_of_mem _ (ih h)

theorem mem_insertTx {ts : Transfers} {tx : TxId} {t : Transaction} {p : TxId × Transaction}
    (h : p ∈ insertTx tx t ts) : p = (tx, t) ∨ p ∈ ts := by
  induction ts with
  | nil => simp [insertTx] at h; simp [h]
  | cons q rest ih =>
      obtain ⟨k, v⟩ := q
      by_cases hk : k = tx
      · simp [insertTx, hk] at h
        rcases h with h | h
        · left; simp [h]
        · right; exact List.mem_cons_of_mem _ h
      · simp [insertTx, hk] at h
        rcases h with h | h
        · right; simp [h]
        · rcases ih h with h' | h'
          · left; exact h'
          · right; exact List.mem_cons_of_mem _ h'

theorem mem_setDispute {ts : Transfers} {tx : TxId} {b : Bool} {p : TxId × Transaction}
    (h : p ∈ setDispute ts tx b) :
    ∃ q ∈ ts, p.2.amount = q.2.amount := by
  induction ts with
  | nil => simp [setDispute] at h
  | cons q rest ih =>
      obtain ⟨k, v⟩ := q
      by_cases hk : k = tx
      · simp [setDispute, hk] at h
        rcases h with h | h
        · exact ⟨(k, v), List.mem_cons_self _ _, by simp [h]⟩
        · exact ⟨p, List.mem_cons_of_mem _ h, rfl⟩
      · simp [setDispute, hk] at h
        rcases h with h | h
        · exact ⟨(k, v), List.mem_cons_self _ _, by simp [h]⟩
        · obtain ⟨q', hq', hq'a⟩ := ih h
          exact ⟨q', List.mem_cons_of_mem _ hq', hq'a⟩

theorem lookupTx_insertTx_self (ts : Transfers) (tx : TxId) (t : Transaction) :
    lookupTx (insertTx tx t ts) tx = some t := by
  induction ts with
  | nil => simp [insertTx, lookupTx]
  | cons q rest ih =>
      obtain ⟨k, v⟩ := q
      by_cases hk : k = tx
      · simp [insertTx, hk, lookupTx]
      · simp [insertTx, hk, lookupTx, ih]

theorem lookupTx_setDispute_self {ts : Transfers} {tx : TxId} {t : Transaction} (b : Bool)
    (h : lookupTx ts tx = some t) :
    lookupTx (setDispute ts tx b) tx = some { t with has_dispute := b } := by
  induction ts with
  | nil => simp [lookupTx] at h
  | cons q rest ih =>
      obtain ⟨k, v⟩ := q
      by_cases hk : k = tx
      · subst hk
        simp [lookupTx] at h
        subst h
        simp [setDispute, lookupTx]
      · simp [lookupTx, hk] at h
        simp [setDispute, lookupTx, hk, ih h]

/-! ### The funds invariant behind claim C7 -/

theorem contrib_nonneg {c : ClientId} {t : Transaction} (h : 0 ≤ t.amount) :
    0 ≤ contrib c t := by
  unfold contrib
  split
  · exact h
  · exact le_refl 0

theorem contrib_of_no_dispute {c : ClientId} {t : Transaction} (h : t.has_dispute = false) :
    contrib c t = 0 := by
  simp [contrib, h]

theorem heldSum_nonneg {ts : Transfers} (c : ClientId) (h : AmountsNonneg ts) :
    0 ≤ heldSum ts c := by
  induction ts with
  | nil => simp [heldSum]
  | cons p rest ih =>
      have h1 : 0 ≤ contrib c p.2 := contrib_nonneg (h p (List.mem_cons_self _ _))
      have h2 : 0 ≤ heldSum rest c :=
        ih fun q hq => h q (List.mem_cons_of_mem _ hq)
      simpa [heldSum] using add_nonneg h1 h2

theorem heldSum_cons (p : TxId × Transaction) (rest : Transfers) (c : ClientId) :
    heldSum (p :: rest) c = contrib c p.2 + heldSum rest c := by
  simp [heldSum]

theorem heldSum_insertTx_of_lookup_none {ts : Transfers} {tx : TxId} (t : Transaction)
    (c : ClientId) (h : lookupTx ts tx = none) :
    heldSum (insertTx tx t ts) c = heldSum ts c + contrib c t := by
  induction ts with
  | nil => simp [insertTx, heldSum, add_comm]
  | cons q rest ih =>
      obtain ⟨k, v⟩ := q
      by_cases hk : k = tx
      · simp [lookupTx, hk] at h
      · simp only [lookupTx, hk, if_false] at h
        simp [insertTx, hk, heldSum_cons, ih h, add_assoc]

theorem heldSum_insertTx_of_lookup_some {ts : Transfers} {tx : TxId} {old : Transaction}
    (t : Transaction) (c : ClientId) (h : lookupTx ts tx = some old) :
    heldSum (insertTx tx t ts) c = heldSum ts c - contrib c old + contrib c t := by
  induction ts with
  | nil => simp [lookupTx] at h
  | cons q rest ih =>
      obtain ⟨k, v⟩ := q
      by_cases hk : k = tx
      · subst hk
        simp [lookupTx] at h
        subst h
        simp [insertTx, heldSum_cons]
        ring
      · simp only [lookupTx, hk, if_false] at h
        simp [insertTx, hk, heldSum_cons, ih h]
        ring

theorem heldSum_setDispute {ts : Transfers} {tx : TxId} {t : Transaction} (b : Bool)
    (c : ClientId) (h : lookupTx ts tx = some t) :
    heldSum (setDispute ts tx b) c
      = heldSum ts c - contrib c t + contrib c { t with has_dispute := b } := by
  induction ts with
  | nil => simp [lookupTx] at h
  | cons q rest ih =>
      obtain ⟨k, v⟩ := q
      by_cases hk : k = tx
      · subst hk
        simp [lookupTx] at h
        subst h
        simp [setDispute, heldSum_cons]
        ring
      · simp only [lookupTx, hk, if_false] at h
        simp [setDispute, hk, heldSum_cons, ih h]
        ring

theorem amountsNonneg_insertTx {ts : Transfers} {tx : TxId} {t : Transaction}
    (h : AmountsNonneg ts) (ht : 0 ≤ t.amount) : AmountsNonneg (insertTx tx t ts) := by
  intro p hp
  rcases mem_insertTx hp with h' | h'
  · simp [h', ht]
  · exact h p h'

theorem amountsNonneg_setDispute {ts : Transfers} {tx : TxId} {b : Bool}
    (h : AmountsNonneg ts) : AmountsNonneg (setDispute ts tx b) := by
  intro p hp
  obtain ⟨q, hq, hqa⟩ := mem_setDispute hp
  rw [hqa]
  exact h q hq

/-! ### Result shapes of each `handle` arm -/

theorem deposit_result (s : State) (c : ClientId) (tx : TxId) (a : Rat) :
    (s.handle (.Deposit c tx a)).1 = materializeClient s c
      ∨ ∃ nx, (clientOrDefault s c).apply (.Deposit a) = .ok nx
          ∧ (s.handle (.Deposit c tx a)).1
              = { transfers := insertTx tx (Transaction.deposit c a) s.transfers,
                  client_states := updateClient s.client_states c nx } := by
  cases happ : (clientOrDefault s c).apply (.Deposit a) with
  | error err => left; rw [handle_deposit_eq_error s c tx a err happ]
  | ok nx =>
      right
      exact ⟨nx, rfl, by rw [handle_deposit_eq_ok s c tx a nx happ]⟩

theorem withdrawal_result (s : State) (c : ClientId) (tx : TxId) (a : Rat) :
    (s.handle (.Withdrawal c tx a)).1 = materializeClient s c
      ∨ ∃ nx, (clientOrDefault s c).apply (.Withdrawal a) = .ok nx
          ∧ (s.handle (.Withdrawal c tx a)).1
              = { transfers := insertTx tx (Transaction.withdrawal c a) s.transfers,
                  client_states := updateClient s.client_states c nx } := by
  cases happ : (clientOrDefault s c).apply (.Withdrawal a) with
  | error err => left; rw [handle_withdrawal_eq_error s c tx a err happ]
  | ok nx =>
      right
      exact ⟨nx, rfl, by rw [handle_withdrawal_eq_ok s c tx a nx happ]⟩

theorem chargeback_result (s : State) (c : ClientId) (tx : TxId) :
    (s.handle (.Chargeback c tx)).1 = s
      ∨ ∃ st, s.client_states c = some st ∧ st.frozen = false
          ∧ (s.handle (.Chargeback c tx)).1
              = { s with client_states := updateClient s.client_states c { st with frozen := true } } := by
  cases h : lookupTx s.transfers tx with
  | none => left; rw [handle_chargeback_of_lookup_none s c tx h]
  | some t =>
      cases hk : t.kind with
      | withdrawal => left; rw [handle_chargeback_of_withdrawal_kind s c tx t h hk]
      | deposit =>
          by_cases hc : c = t.client
          · cases hs : s.client_states c with
            | none => left; rw [handle_chargeback_of_no_state s c tx t h hs]
            | some st =>
                cases happ : st.apply .Chargeback with
                | error err => left; rw [handle_chargeback_of_apply_error s c tx t st err h hs happ]
                | ok nx =>
                    right
                    obtain ⟨hf, hnx⟩ := apply_chargeback_ok happ
                    refine ⟨st, rfl, hf, ?_⟩
                    rw [handle_chargeback_eq_ok s c tx t st nx h hk hc.symm hs happ, hnx]
          · left; rw [handle_chargeback_of_mismatch s c tx t h hc]

theorem dispute_result (s : State) (c : ClientId) (tx : TxId) :
    (s.handle (.Dispute c tx)).1 = s
      ∨ ∃ t st nx, lookupTx s.transfers tx = some t ∧ t.client = c ∧ t.has_dispute = false
          ∧ s.client_states c = some st ∧ st.apply (disputeTransition t) = .ok nx
          ∧ (s.handle (.Dispute c tx)).1
              = { s with client_states := updateClient s.client_states c nx,
                         transfers := setDispute s.transfers tx true } := by
  cases h : lookupTx s.transfers tx with
  | none => left; rw [handle_dispute_of_lookup_none s c tx h]
  | some t =>
      by_cases hc : c = t.client
      · by_cases hd : t.has_dispute = true
        · left; rw [handle_dispute_of_guard s c tx t h (Or.inr hd)]
        · cases hs : s.client_states c with
          | none => left; rw [handle_dispute_of_no_state s c tx t h hs]
          | some st =>
              cases happ : st.apply (disputeTransition t) with
              | error err => left; rw [handle_dispute_of_apply_error s c tx t st err h hs happ]
              | ok nx =>
                  right
                  refine ⟨t, st, nx, rfl, hc.symm, by simpa using hd, rfl, happ, ?_⟩
                  rw [handle_dispute_eq_ok s c tx t st nx h hc.symm (by simpa using hd) hs happ]
      · left; rw [handle_dispute_of_guard s c tx t h (Or.inl hc)]

theorem resolve_result (s : State) (c : ClientId) (tx : TxId) :
    (s.handle (.Resolve c tx)).1 = s
      ∨ ∃ t st nx, lookupTx s.transfers tx = some t ∧ t.client = c ∧ t.has_dispute = true
          ∧ s.client_states c = some st ∧ st.apply (.Resolve t.amount) = .ok nx
          ∧ (s.handle (.Resolve c tx)).1
              = { s with client_states := updateClient s.client_states c nx,
                         transfers := setDispute s.transfers tx false } := by
  cases h : lookupTx s.transfers tx with
  | none => left; rw [handle_resolve_of_lookup_none s c tx h]
  | some t =>
      by_cases hc : c = t.client
      · by_cases hd : t.has_dispute = true
        · cases hs : s.client_states t.client with
          | none => left; rw [handle_resolve_of_no_state s c tx t h hs]
          | some st =>
              cases happ : st.apply (.Resolve t.amount) with
              | error err => left; rw [handle_resolve_of_apply_error s c tx t st err h hs happ]
              | ok nx =>
                  right
                  refine ⟨t, st, nx, rfl, hc.symm, hd, by rw [hc]; exact hs, happ, ?_⟩
                  rw [handle_resolve_eq_ok s c tx t st nx h hc.symm hd hs happ, hc]
        · left; rw [handle_resolve_of_guard s c tx t h (Or.inr (by simpa using hd))]
      · left; rw [handle_resolve_of_guard s c tx t h (Or.inl hc)]

/-! ### Preservation of the funds invariant -/

theorem clientOrDefault_eq_of_some {s : State} {c : ClientId} {st : ClientState}
    (h : s.client_states c = some st) : clientOrDefault s c = st := by
  simp [clientOrDefault, h]

theorem fundsInv_materialize {s : State} (c : ClientId) (h : FundsInv s) :
    FundsInv (materializeClient s c) := by
  obtain ⟨hA, hAv, hH⟩ := h
  refine ⟨hA, fun c' => ?_, fun c' => ?_⟩
  · rw [clientOrDefault_materialize]; exact hAv c'
  · rw [clientOrDefault_materialize]; exact hH c'

theorem heldSum_insertTx_fresh_le {ts : Transfers} {tx : TxId} {t : Transaction}
    (c : ClientId) (hA : AmountsNonneg ts) (hd : t.has_dispute = false) :
    heldSum (insertTx tx t ts) c ≤ heldSum ts c := by
  cases hl : lookupTx ts tx with
  | none =>
      rw [heldSum_insertTx_of_lookup_none t c hl, contrib_of_no_dispute hd, add_zero]
  | some old =>
      rw [heldSum_insertTx_of_lookup_some t c hl, contrib_of_no_dispute hd, add_zero]
      have : 0 ≤ contrib c old := contrib_nonneg (hA _ (lookupTx_mem hl))
      linarith

theorem fundsInv_handle_deposit (s : State) (c : ClientId) (tx : TxId) (a : Rat)
    (hInv : FundsInv s) (ha : 0 ≤ a) : FundsInv (s.handle (.Deposit c tx a)).1 := by
  obtain ⟨hA, hAv, hH⟩ := hInv
  rcases deposit_result s c tx a with h | ⟨nx, happ, h⟩
  · rw [h]; exact fundsInv_materialize c ⟨hA, hAv, hH⟩
  · rw [h]
    obtain ⟨hf, hnx⟩ := apply_deposit_ok happ
    refine ⟨?_, fun c' => ?_, fun c' => ?_⟩
    · exact amountsNonneg_insertTx hA (by simpa [Transaction.deposit] using ha)
    · by_cases hc : c' = c
      · subst hc
        simp only [clientOrDefault, updateClient_self, Option.getD_some]
        rw [hnx]
        exact add_nonneg (hAv c') ha
      · simp only [clientOrDefault, updateClient_other _ _ _ _ hc]
        exact hAv c'
    · have hins : heldSum (insertTx tx (Transaction.deposit c a) s.transfers) c'
          ≤ heldSum s.transfers c' :=
        heldSum_insertTx_fresh_le c' hA (by simp [Transaction.deposit])
      by_cases hc : c' = c
      · subst hc
        simp only [clientOrDefault, updateClient_self, Option.getD_some]
        have : nx.held = (clientOrDefault s c').held := by rw [hnx]
        rw [this]
        exact le_trans hins (hH c')
      · simp only [clientOrDefault, updateClient_other _ _ _ _ hc]
        exact le_trans hins (hH c')

theorem fundsInv_handle_withdrawal (s : State) (c : ClientId) (tx : TxId) (a : Rat)
    (hInv : FundsInv s) (ha : 0 ≤ a) : FundsInv (s.handle (.Withdrawal c tx a)).1 := by
  obtain ⟨hA, hAv, hH⟩ := hInv
  rcases withdrawal_result s c tx a with h | ⟨nx, happ, h⟩
  · rw [h]; exact fundsInv_materialize c ⟨hA, hAv, hH⟩
  · rw [h]
    obtain ⟨hf, hlt, hnx⟩ := apply_withdrawal_ok happ
    refine ⟨?_, fun c' => ?_, fun c' => ?_⟩
    · exact amountsNonneg_insertTx hA (by simpa [Transaction.withdrawal] using ha)
    · by_cases hc : c' = c
      · subst hc
        simp only [clientOrDefault, updateClient_self, Option.getD_some]
        rw [hnx]
        simp only [not_lt] at hlt
        simpa using sub_nonneg.mpr hlt
      · simp only [clientOrDefault, updateClient_other _ _ _ _ hc]
        exact hAv c'
    · have hins : heldSum (insertTx tx (Transaction.withdrawal c a) s.transfers) c'
          ≤ heldSum s.transfers c' :=
        heldSum_insertTx_fresh_le c' hA (by simp [Transaction.withdrawal])
      by_cases hc : c' = c
      · subst hc
        simp only [clientOrDefault, updateClient_self, Option.getD_some]
        have : nx.held = (clientOrDefault s c').held := by rw [hnx]
        rw [this]
        exact le_trans hins (hH c')
      · simp only [clientOrDefault, updateClient_other _ _ _ _ hc]
        exact le_trans hins (hH c')

theorem fundsInv_handle_chargeback (s : State) (c : ClientId) (tx : TxId)
    (hInv : FundsInv s) : FundsInv (s.handle (.Chargeback c tx)).1 := by
  obtain ⟨hA, hAv, hH⟩ := hInv
  rcases chargeback_result s c tx with h | ⟨st, hs, hf, h⟩
  · rw [h]; exact ⟨hA, hAv, hH⟩
  · rw [h]
    have hcd : clientOrDefault s c = st := clientOrDefault_eq_of_some hs
    refine ⟨hA, fun c' => ?_, fun c' => ?_⟩
    · by_cases hc : c' = c
      · subst hc
        simp only [clientOrDefault, updateClient_self, Option.getD_some]
        have := hAv c'
        rw [hcd] at this
        exact this
      · simp only [clientOrDefault, updateClient_other _ _ _ _ hc]
        exact hAv c'
    · by_cases hc : c' = c
      · subst hc
        simp only [clientOrDefault, updateClient_self, Option.getD_some]
        have := hH c'
        rw [hcd] at this
        exact this
      · simp only [clientOrDefault, updateClient_other _ _ _ _ hc]
        exact hH c'

theorem fundsInv_handle_dispute (s : State) (c : ClientId) (tx : TxId)
    (hInv : FundsInv s) : FundsInv (s.handle (.Dispute c tx)).1 := by
  obtain ⟨hA, hAv, hH⟩ := hInv
  rcases dispute_result s c tx with h | ⟨t, st, nx, hl, hc, hd, hs, happ, h⟩
  · rw [h]; exact ⟨hA, hAv, hH⟩
  · rw [h]
    have hcd : clientOrDefault s c = st := clientOrDefault_eq_of_some hs
    have hta : 0 ≤ t.amount := hA _ (lookupTx_mem hl)
    -- the shape of the successor state, uniform in the record kind
    have hnx : nx.held = st.held + t.amount ∧ 0 ≤ nx.available := by
      cases hk : t.kind with
      | deposit =>
          rw [disputeTransition, hk] at happ
          obtain ⟨hf, hlt, hnx⟩ := apply_dispute_deposit_ok happ
          constructor
          · rw [hnx]
          · rw [hnx]
            simp only [not_lt] at hlt
            simpa using sub_nonneg.mpr hlt
      | withdrawal =>
          rw [disputeTransition, hk] at happ
          obtain ⟨hf, hnx⟩ := apply_dispute_withdrawal_ok happ
          constructor
          · rw [hnx]
          · rw [hnx]
            have := hAv c
            rw [hcd] at this
            simpa using this
    have hsum : ∀ c', heldSum (setDispute s.transfers tx true) c'
        = heldSum s.transfers c' + contrib c' { t with has_dispute := true } := by
      intro c'
      rw [heldSum_setDispute true c' hl, contrib_of_no_dispute hd]
      ring
    refine ⟨amountsNonneg_setDispute hA, fun c' => ?_, fun c' => ?_⟩
    · by_cases hcc : c' = c
      · subst hcc
        simp only [clientOrDefault, updateClient_self, Option.getD_some]
        exact hnx.2
      · simp only [clientOrDefault, updateClient_other _ _ _ _ hcc]
        exact hAv c'
    · by_cases hcc : c' = c
      · subst hcc
        simp only [clientOrDefault, updateClient_self, Option.getD_some]
        rw [hsum c', hnx.1]
        have hcon : contrib c' { t with has_dispute := true } ≤ t.amount := by
          simp only [contrib]
          split
          · exact le_refl _
          · exact hta
        have := hH c'
        rw [hcd] at this
        linarith
      · simp only [clientOrDefault, updateClient_other _ _ _ _ hcc]
        rw [hsum c']
        have hcon : contrib c' { t with has_dispute := true } = 0 := by
          simp only [contrib]
          rw [if_neg]
          intro hcl
          exact hcc (by rw [← hc]; exact hcl.1.symm)
        rw [hcon, add_zero]
        exact hH c'

theorem fundsInv_handle_resolve (s : State) (c : ClientId) (tx : TxId)
    (hInv : FundsInv s) : FundsInv (s.handle (.Resolve c tx)).1 := by
  obtain ⟨hA, hAv, hH⟩ := hInv
  rcases resolve_result s c tx with h | ⟨t, st, nx, hl, hc, hd, hs, happ, h⟩
  · rw [h]; exact ⟨hA, hAv, hH⟩
  · rw [h]
    have hcd : clientOrDefault s c = st := clientOrDefault_eq_of_some hs
    have hta : 0 ≤ t.amount := hA _ (lookupTx_mem hl)
    obtain ⟨hf, hnx⟩ := apply_resolve_ok happ
    have hsum : ∀ c', heldSum (setDispute s.transfers tx false) c'
        = heldSum s.transfers c' - contrib c' t := by
      intro c'
      rw [heldSum_setDispute false c' hl, contrib_of_no_dispute (t := { t with has_dispute := false }) rfl]
      ring
    refine ⟨amountsNonneg_setDispute hA, fun c' => ?_, fun c' => ?_⟩
    · by_cases hcc : c' = c
      · subst hcc
        simp only [clientOrDefault, updateClient_self, Option.getD_some]
        rw [hnx]
        have := hAv c'
        rw [hcd] at this
        simpa using add_nonneg this hta
      · simp only [clientOrDefault, updateClient_other _ _ _ _ hcc]
        exact hAv c'
    · by_cases hcc : c' = c
      · subst hcc
        simp only [clientOrDefault, updateClient_self, Option.getD_some]
        rw [hsum c', hnx]
        have hcon : contrib c' t = t.amount := by
          simp [contrib, hc, hd]
        rw [hcon]
        have := hH c'
        rw [hcd] at this
        simp only
        linarith
      · simp only [clientOrDefault, updateClient_other _ _ _ _ hcc]
        rw [hsum c']
        have hcon : contrib c' t = 0 := by
          simp only [contrib]
          rw [if_neg]
          intro hcl
          exact hcc (by rw [← hc]; exact hcl.1.symm)
        rw [hcon, sub_zero]
        exact hH c'

theorem fundsInv_handle (s : State) (e : Event) (hInv : FundsInv s)
    (he : EventAmountsNonneg e) : FundsInv (s.handle e).1 := by
  cases e with
  | Deposit c tx a => exact fundsInv_handle_deposit s c tx a hInv he
  | Withdrawal c tx a => exact fundsInv_handle_withdrawal s c tx a hInv he
  | Dispute c tx => exact fundsInv_handle_dispute s c tx hInv
  | Resolve c tx => exact fundsInv_handle_resolve s c tx hInv
  | Chargeback c tx => exact fundsInv_handle_chargeback s c tx hInv

theorem fundsInv_new : FundsInv State.new := by
  refine ⟨?_, fun c => ?_, fun c => ?_⟩
  · intro p hp
    simp [State.new] at hp
  · simp [State.new, clientOrDefault, ClientState.default]
  · simp [State.new, clientOrDefault, ClientState.default, heldSum]

theorem fundsInv_runEvents (s : State) (evs : List Event) (hInv : FundsInv s)
    (he : ∀ e ∈ evs, EventAmountsNonneg e) : FundsInv (runEvents s evs).1 := by
  induction evs generalizing s with
  | nil => simpa [runEvents] using hInv
  | cons e rest ih =>
      have h1 : FundsInv (s.handle e).1 :=
        fundsInv_handle s e hInv (he e (List.mem_cons_self _ _))
      have h2 : ∀ e' ∈ rest, EventAmountsNonneg e' :=
        fun e' he' => he e' (List.mem_cons_of_mem _ he')
      cases hh : s.handle e with
      | mk s' r =>
          cases r with
          | none =>
              simp only [runEvents, hh]
              have := ih s' (by rw [hh] at h1; exact h1) h2
              exact this
          | some err =>
              simp only [runEvents, hh]
              rw [hh] at h1
              exact h1

/-! ### The dispute-family arms never return an error -/

theorem dispute_no_error (s : State) (c : ClientId) (tx : TxId) :
    (s.handle (.Dispute c tx)).2 = none := by
  simp only [State.handle]
  repeat' split
  all_goals rfl

theorem resolve_no_error (s : State) (c : ClientId) (tx : TxId) :
    (s.handle (.Resolve c tx)).2 = none := by
  simp only [State.handle]
  repeat' split
  all_goals rfl

theorem chargeback_no_error (s : State) (c : ClientId) (tx : TxId) :
    (s.handle (.Chargeback c tx)).2 = none := by
  simp only [State.handle]
  repeat' split
  all_goals rfl

/-! ### Claim theorems -/

/-- Claim C6: `frozen = true` is absorbing for the account state machine —
once a client state is frozen, every transition of every kind (deposit,
withdrawal, dispute, resolve, chargeback) fails with the `ClientFrozen`
error, so `available` and `held` never change after the moment of
freezing. -/
theorem frozen_is_absorbing (st : ClientState) (t : Transition)
    (h : st.frozen = true) : st.apply t = .error .ClientFrozen :=
  apply_frozen st t h

/-- Witness for `frozen_is_absorbing` at a concrete frozen state and a
concrete transition. -/
theorem frozen_is_absorbing_witness :
    (⟨true, 5, 2⟩ : ClientState).frozen = true
      ∧ (⟨true, 5, 2⟩ : ClientState).apply (.Deposit 1) = .error .ClientFrozen :=
  ⟨rfl, frozen_is_absorbing ⟨true, 5, 2⟩ (.Deposit 1) rfl⟩

/-- Claim C5: a chargeback applies only to a deposit-kind record whose stored
client matches the event's client — charging back a withdrawal-kind record or
with a mismatched client is a silent no-op — and needs no active dispute on
the record; on success only the owner's `frozen` flag is set: `available`,
`held` and the record's dispute flag are unchanged (the result keeps
`s.transfers` and the new client state changes only `frozen`). -/
theorem chargeback_semantics (s : State) (c : ClientId) (tx : TxId)
    (t : Transaction) (st : ClientState)
    (h : lookupTx s.transfers tx = some t) :
    (t.kind = .withdrawal → s.handle (.Chargeback c tx) = (s, none))
    ∧ (c ≠ t.client → s.handle (.Chargeback c tx) = (s, none))
    ∧ (t.kind = .deposit → t.client = c → s.client_states c = some st →
        st.frozen = false →
        s.handle (.Chargeback c tx)
          = ({ s with client_states :=
                 updateClient s.client_states c { st with frozen := true } }, none)) := by
  refine ⟨fun hk => ?_, fun hc => ?_, fun hk hc hs hf => ?_⟩
  · exact handle_chargeback_of_withdrawal_kind s c tx t h hk
  · exact handle_chargeback_of_mismatch s c tx t h hc
  · exact handle_chargeback_eq_ok s c tx t st _ h hk hc hs
      (apply_chargeback_of_not_frozen st hf)

/-- Witness for `chargeback_semantics`: all three conjuncts instantiated on
`sCb` (withdrawal-kind no-op, mismatched-client no-op, and a successful
chargeback of an undisputed deposit). -/
theorem chargeback_semantics_witness :
    lookupTx sCb.transfers 1 = some (Transaction.withdrawal 7 30)
    ∧ sCb.handle (.Chargeback 7 1) = (sCb, none)
    ∧ lookupTx sCb.transfers 0 = some (Transaction.deposit 7 100)
    ∧ sCb.handle (.Chargeback 9 0) = (sCb, none)
    ∧ sCb.client_states 7 = some ⟨false, 70, 0⟩
    ∧ sCb.handle (.Chargeback 7 0)
        = ({ sCb with client_states := updateClient sCb.client_states 7 ⟨true, 70, 0⟩ }, none) := by
  refine ⟨rfl, ?_, rfl, ?_, rfl, ?_⟩
  · exact (chargeback_semantics sCb 7 1 (Transaction.withdrawal 7 30) ⟨false, 70, 0⟩ rfl).1 rfl
  · exact (chargeback_semantics sCb 9 0 (Transaction.deposit 7 100) ⟨false, 70, 0⟩ rfl).2.1
      (by decide)
  · exact (chargeback_semantics sCb 7 0 (Transaction.deposit 7 100) ⟨false, 70, 0⟩ rfl).2.2
      rfl rfl rfl rfl

/-- Claim C8: disputing a deposit record moves exactly the recorded amount
from the owner's `available` into `held` and sets the record's dispute flag;
disputing an already-disputed record is a no-op; and when the dispute
transition fails (frozen account or insufficient available funds) nothing
changes and the record is not marked disputed. -/
theorem dispute_deposit_semantics (s : State) (c : ClientId) (tx : TxId)
    (t : Transaction) (st : ClientState)
    (h : lookupTx s.transfers tx = some t) (hk : t.kind = .deposit) (hc : t.client = c) :
    (t.has_dispute = false → s.client_states c = some st → st.frozen = false →
        ¬st.available < t.amount →
        s.handle (.Dispute c tx)
          = ({ s with
                client_states := updateClient s.client_states c { st with available := st.available - t.amount, held := st.held + t.amount },
                transfers := setDispute s.transfers tx true }, none)
        ∧ lookupTx (s.handle (.Dispute c tx)).1.transfers tx
            = some { t with has_dispute := true })
    ∧ (t.has_dispute = true → s.handle (.Dispute c tx) = (s, none))
    ∧ (t.has_dispute = false → s.client_states c = some st →
        (st.frozen = true ∨ st.available < t.amount) → s.handle (.Dispute c tx) = (s, none)) := by
  refine ⟨fun hd hs hf hlt => ?_, fun hd => ?_, fun hd hs hfail => ?_⟩
  · have happ : st.apply (disputeTransition t)
        = .ok { st with available := st.available - t.amount, held := st.held + t.amount } := by
      rw [disputeTransition, hk]
      exact apply_dispute_deposit_of_guards st t.amount hf hlt
    have heq := handle_dispute_eq_ok s c tx t st _ h hc hd hs happ
    refine ⟨heq, ?_⟩
    rw [heq]
    exact lookupTx_setDispute_self true h
  · exact handle_dispute_of_guard s c tx t h (Or.inr hd)
  · have happ : ∃ err, st.apply (disputeTransition t) = .error err := by
      rcases hfail with hf | hlt
      · exact ⟨.ClientFrozen, apply_frozen st _ hf⟩
      · by_cases hf : st.frozen = true
        · exact ⟨.ClientFrozen, apply_frozen st _ hf⟩
        · refine ⟨.InsufficientFunds, ?_⟩
          rw [disputeTransition, hk]
          simp [ClientState.apply, hf, hlt]
    obtain ⟨err, happ⟩ := happ
    exact handle_dispute_of_apply_error s c tx t st err h hs happ

/-- Witness for `dispute_deposit_semantics`: a successful dispute, a
second-dispute no-op and an insufficient-funds no-op on `sD8`. -/
theorem dispute_deposit_semantics_witness :
    lookupTx sD8.transfers 0 = some ⟨.deposit, 3, 50, false⟩
    ∧ sD8.client_states 3 = some ⟨false, 60, 10⟩
    ∧ ¬(60 : Rat) < 50
    ∧ (sD8.handle (.Dispute 3 0)
        = ({ sD8 with
              client_states := updateClient sD8.client_states 3 ⟨false, (60 : Rat) - 50, (10 : Rat) + 50⟩,
              transfers := setDispute sD8.transfers 0 true }, none)
        ∧ lookupTx (sD8.handle (.Dispute 3 0)).1.transfers 0 = some ⟨.deposit, 3, 50, true⟩)
    ∧ sD8.handle (.Dispute 3 1) = (sD8, none)
    ∧ (60 : Rat) < 1000
    ∧ sD8.handle (.Dispute 3 2) = (sD8, none) := by
  refine ⟨rfl, rfl, by decide, ?_, ?_, by decide, ?_⟩
  · exact (dispute_deposit_semantics sD8 3 0 ⟨.deposit, 3, 50, false⟩ ⟨false, 60, 10⟩
      rfl rfl rfl).1 rfl rfl rfl (by decide)
  · exact (dispute_deposit_semantics sD8 3 1 ⟨.deposit, 3, 10, true⟩ ⟨false, 60, 10⟩
      rfl rfl rfl).2.1 rfl
  · exact (dispute_deposit_semantics sD8 3 2 ⟨.deposit, 3, 1000, false⟩ ⟨false, 60, 10⟩
      rfl rfl rfl).2.2 rfl rfl (Or.inr (by decide))

/-- Claim C9: disputing a withdrawal record adds the recorded amount to the
owner's `held` without touching `available` (so `total` grows by the amount),
and in particular the scenario deposit(c0,tx0,100), withdrawal(c0,tx1,50),
dispute(c0,tx1) ends with available = 50, held = 50, total = 100. -/
theorem dispute_withdrawal_semantics (s : State) (c : ClientId) (tx : TxId)
    (t : Transaction) (st : ClientState) :
    (lookupTx s.transfers tx = some t → t.kind = .withdrawal → t.client = c →
      t.has_dispute = false → s.client_states c = some st → st.frozen = false →
      s.handle (.Dispute c tx)
        = ({ s with
              client_states := updateClient s.client_states c { st with held := st.held + t.amount },
              transfers := setDispute s.transfers tx true }, none)
      ∧ ClientState.total { st with held := st.held + t.amount }
          = st.total + t.amount)
    ∧ ((runEvents State.new
          [.Deposit 0 0 100, .Withdrawal 0 1 50, .Dispute 0 1]).1.client_states 0
        = some ⟨false, 50, 50⟩
      ∧ ClientState.total ⟨false, 50, 50⟩ = 100) := by
  constructor
  · intro h hk hc hd hs hf
    have happ : st.apply (disputeTransition t) = .ok { st with held := st.held + t.amount } := by
      rw [disputeTransition, hk]
      exact apply_dispute_withdrawal_of_not_frozen st t.amount hf
    refine ⟨handle_dispute_eq_ok s c tx t st _ h hc hd hs happ, ?_⟩
    simp [ClientState.total]
    ring
  · constructor
    · norm_num [runEvents, State.handle, clientOrDefault, updateClient, lookupTx, insertTx,
        setDispute, ClientState.apply, State.new, ClientState.default, Transaction.deposit,
        Transaction.withdrawal]
    · norm_num [ClientState.total]

/-- Witness for `dispute_withdrawal_semantics` on `sD9`. -/
theorem dispute_withdrawal_semantics_witness :
    lookupTx sD9.transfers 4 = some ⟨.withdrawal, 2, 30, false⟩
    ∧ sD9.client_states 2 = some ⟨false, 20, 0⟩
    ∧ (sD9.handle (.Dispute 2 4)
        = ({ sD9 with
              client_states := updateClient sD9.client_states 2 ⟨false, 20, (0 : Rat) + 30⟩,
              transfers := setDispute sD9.transfers 4 true }, none)
        ∧ ClientState.total ⟨false, 20, (0 : Rat) + 30⟩
            = ClientState.total ⟨false, 20, 0⟩ + 30) :=
  ⟨rfl, rfl,
    (dispute_withdrawal_semantics sD9 2 4 ⟨.withdrawal, 2, 30, false⟩ ⟨false, 20, 0⟩).1
      rfl rfl rfl rfl rfl rfl⟩

/-- Claim C10: a resolve takes effect only when the referenced transaction
exists, its stored client matches and its dispute flag is set — otherwise it
is a silent no-op; on success it adds the stored amount to `available`,
subtracts it from `held` and clears the record's dispute flag. -/
theorem resolve_semantics (s : State) (c : ClientId) (tx : TxId)
    (t : Transaction) (st : ClientState) :
    (lookupTx s.transfers tx = none → s.handle (.Resolve c tx) = (s, none))
    ∧ (lookupTx s.transfers tx = some t → c ≠ t.client →
        s.handle (.Resolve c tx) = (s, none))
    ∧ (lookupTx s.transfers tx = some t → t.has_dispute = false →
        s.handle (.Resolve c tx) = (s, none))
    ∧ (lookupTx s.transfers tx = some t → t.client = c → t.has_dispute = true →
        s.client_states c = some st → st.frozen = false →
        s.handle (.Resolve c tx)
          = ({ s with
                client_states := updateClient s.client_states c { st with available := st.available + t.amount, held := st.held - t.amount },
                transfers := setDispute s.transfers tx false }, none)
        ∧ lookupTx (s.handle (.Resolve c tx)).1.transfers tx
            = some { t with has_dispute := false }) := by
  refine ⟨fun h => ?_, fun h hc => ?_, fun h hd => ?_, fun h hc hd hs hf => ?_⟩
  · exact handle_resolve_of_lookup_none s c tx h
  · exact handle_resolve_of_guard s c tx t h (Or.inl hc)
  · exact handle_resolve_of_guard s c tx t h (Or.inr hd)
  · have hs' : s.client_states t.client = some st := by rw [hc]; exact hs
    have heq := handle_resolve_eq_ok s c tx t st _ h hc hd hs'
      (apply_resolve_of_not_frozen st t.amount hf)
    rw [hc] at heq
    refine ⟨heq, ?_⟩
    rw [heq]
    exact lookupTx_setDispute_self false h

/-- Witness for `resolve_semantics` on `sRv`: unknown id, mismatched client,
undisputed record and a successful resolve. -/
theorem resolve_semantics_witness :
    lookupTx sRv.transfers 9 = none
    ∧ sRv.handle (.Resolve 5 9) = (sRv, none)
    ∧ lookupTx sRv.transfers 0 = some ⟨.deposit, 5, 40, true⟩
    ∧ sRv.handle (.Resolve 6 0) = (sRv, none)
    ∧ lookupTx sRv.transfers 1 = some ⟨.deposit, 5, 8, false⟩
    ∧ sRv.handle (.Resolve 5 1) = (sRv, none)
    ∧ sRv.client_states 5 = some ⟨false, 10, 40⟩
    ∧ (sRv.handle (.Resolve 5 0)
        = ({ sRv with
              client_states := updateClient sRv.client_states 5 ⟨false, (10 : Rat) + 40, (40 : Rat) - 40⟩,
              transfers := setDispute sRv.transfers 0 false }, none)
        ∧ lookupTx (sRv.handle (.Resolve 5 0)).1.transfers 0
            = some ⟨.deposit, 5, 40, false⟩) := by
  refine ⟨rfl, ?_, rfl, ?_, rfl, ?_, rfl, ?_⟩
  · exact (resolve_semantics sRv 5 9 ⟨.deposit, 5, 40, true⟩ ⟨false, 10, 40⟩).1 rfl
  · exact (resolve_semantics sRv 6 0 ⟨.deposit, 5, 40, true⟩ ⟨false, 10, 40⟩).2.1 rfl
      (by decide)
  · exact (resolve_semantics sRv 5 1 ⟨.deposit, 5, 8, false⟩ ⟨false, 10, 40⟩).2.2.1 rfl rfl
  · exact (resolve_semantics sRv 5 0 ⟨.deposit, 5, 40, true⟩ ⟨false, 10, 40⟩).2.2.2
      rfl rfl rfl rfl rfl

/-- Claim C3: when a second deposit/withdrawal reusing an existing
transaction id is handled (and its account transition succeeds), the
duplicate-id error is returned only after both stores were already mutated:
the owner's account state reflects the duplicate event and the original
ledger record has been replaced by the new one. -/
theorem duplicate_error_not_atomic (s : State) (c : ClientId) (tx : TxId) (a : Rat)
    (old : Transaction) (h : lookupTx s.transfers tx = some old) :
    ((clientOrDefault s c).frozen = false →
      s.handle (.Deposit c tx a)
        = ({ transfers := insertTx tx (Transaction.deposit c a) s.transfers,
             client_states := updateClient s.client_states c { clientOrDefault s c with available := (clientOrDefault s c).available + a } },
           some (.DuplicateTxId tx))
      ∧ lookupTx (s.handle (.Deposit c tx a)).1.transfers tx = some (Transaction.deposit c a))
    ∧ ((clientOrDefault s c).frozen = false → ¬(clientOrDefault s c).available < a →
      s.handle (.Withdrawal c tx a)
        = ({ transfers := insertTx tx (Transaction.withdrawal c a) s.transfers,
             client_states := updateClient s.client_states c { clientOrDefault s c with available := (clientOrDefault s c).available - a } },
           some (.DuplicateTxId tx))
      ∧ lookupTx (s.handle (.Withdrawal c tx a)).1.transfers tx
          = some (Transaction.withdrawal c a)) := by
  constructor
  · intro hf
    have heq := handle_deposit_eq_ok s c tx a _
      (apply_deposit_of_not_frozen (clientOrDefault s c) a hf)
    rw [h] at heq
    refine ⟨heq, ?_⟩
    rw [heq]
    exact lookupTx_insertTx_self s.transfers tx (Transaction.deposit c a)
  · intro hf hlt
    have heq := handle_withdrawal_eq_ok s c tx a _
      (apply_withdrawal_of_guards (clientOrDefault s c) a hf hlt)
    rw [h] at heq
    refine ⟨heq, ?_⟩
    rw [heq]
    exact lookupTx_insertTx_self s.transfers tx (Transaction.withdrawal c a)

/-- Witness for `duplicate_error_not_atomic` on `sDup`: a duplicate deposit
and a duplicate withdrawal both error after mutating the stores. -/
theorem duplicate_error_not_atomic_witness :
    lookupTx sDup.transfers 0 = some (Transaction.deposit 1 100)
    ∧ (clientOrDefault sDup 1).frozen = false
    ∧ ¬(clientOrDefault sDup 1).available < 40
    ∧ (sDup.handle (.Deposit 1 0 5)
        = ({ transfers := insertTx 0 (Transaction.deposit 1 5) sDup.transfers,
             client_states := updateClient sDup.client_states 1 { clientOrDefault sDup 1 with available := (clientOrDefault sDup 1).available + 5 } },
           some (.DuplicateTxId 0))
      ∧ lookupTx (sDup.handle (.Deposit 1 0 5)).1.transfers 0 = some (Transaction.deposit 1 5))
    ∧ (sDup.handle (.Withdrawal 1 0 40)
        = ({ transfers := insertTx 0 (Transaction.withdrawal 1 40) sDup.transfers,
             client_states := updateClient sDup.client_states 1 { clientOrDefault sDup 1 with available := (clientOrDefault sDup 1).available - 40 } },
           some (.DuplicateTxId 0))
      ∧ lookupTx (sDup.handle (.Withdrawal 1 0 40)).1.transfers 0
          = some (Transaction.withdrawal 1 40)) :=
  ⟨rfl, rfl, by decide,
    (duplicate_error_not_atomic sDup 1 0 5 (Transaction.deposit 1 100) rfl).1 rfl,
    (duplicate_error_not_atomic sDup 1 0 40 (Transaction.deposit 1 100) rfl).2 rfl (by decide)⟩

/-- Claim C2 counterexample: the stream deposit(1,tx=0,100),
withdrawal(2,tx=0,50) contains two deposit/withdrawal events with the same
transaction id, yet handling the second returns `Ok` (no duplicate-id
error), because its account transition fails (insufficient funds) before the
ledger insert is attempted. -/
theorem duplicate_txid_claim_counterexample :
    lookupTx (State.new.handle (.Deposit 1 0 100)).1.transfers 0
      = some (Transaction.deposit 1 100)
    ∧ ((State.new.handle (.Deposit 1 0 100)).1.handle (.Withdrawal 2 0 50)).2 = none := by
  constructor
  · norm_num [State.handle, State.new, clientOrDefault, updateClient, ClientState.apply,
      ClientState.default, lookupTx, insertTx, Transaction.deposit]
  · norm_num [State.handle, State.new, clientOrDefault, updateClient, ClientState.apply,
      ClientState.default, lookupTx, insertTx, Transaction.deposit]

/-- Claim C2 (amended): a second deposit/withdrawal reusing an existing
transaction id aborts with the duplicate-id error provided its account
transition succeeds; if the transition fails the event is silently dropped
with no error; dispute/resolve/chargeback events never produce an error for
any id. -/
theorem duplicate_txid_amended (s : State) (c : ClientId) (tx : TxId) (a : Rat)
    (old : Transaction) :
    (lookupTx s.transfers tx = some old → (clientOrDefault s c).frozen = false →
        (s.handle (.Deposit c tx a)).2 = some (.DuplicateTxId tx))
    ∧ (lookupTx s.transfers tx = some old → (clientOrDefault s c).frozen = false →
        ¬(clientOrDefault s c).available < a →
        (s.handle (.Withdrawal c tx a)).2 = some (.DuplicateTxId tx))
    ∧ ((clientOrDefault s c).frozen = true → (s.handle (.Deposit c tx a)).2 = none)
    ∧ ((clientOrDefault s c).frozen = true ∨ (clientOrDefault s c).available < a →
        (s.handle (.Withdrawal c tx a)).2 = none)
    ∧ (s.handle (.Dispute c tx)).2 = none
    ∧ (s.handle (.Resolve c tx)).2 = none
    ∧ (s.handle (.Chargeback c tx)).2 = none := by
  refine ⟨fun h hf => ?_, fun h hf hlt => ?_, fun hf => ?_, fun hfail => ?_,
    dispute_no_error s c tx, resolve_no_error s c tx, chargeback_no_error s c tx⟩
  · have heq := handle_deposit_eq_ok s c tx a _
      (apply_deposit_of_not_frozen (clientOrDefault s c) a hf)
    rw [h] at heq
    rw [heq]
  · have heq := handle_withdrawal_eq_ok s c tx a _
      (apply_withdrawal_of_guards (clientOrDefault s c) a hf hlt)
    rw [h] at heq
    rw [heq]
  · rw [handle_deposit_eq_error s c tx a .ClientFrozen (apply_frozen _ _ hf)]
  · have happ : ∃ err, (clientOrDefault s c).apply (.Withdrawal a) = .error err := by
      rcases hfail with hf | hlt
      · exact ⟨.ClientFrozen, apply_frozen _ _ hf⟩
      · by_cases hf : (clientOrDefault s c).frozen = true
        · exact ⟨.ClientFrozen, apply_frozen _ _ hf⟩
        · exact ⟨.InsufficientFunds, by simp [ClientState.apply, hf, hlt]⟩
    obtain ⟨err, happ⟩ := happ
    rw [handle_withdrawal_eq_error s c tx a err happ]

/-- Witness for `duplicate_txid_amended` on `sDup` (duplicate deposit errors;
duplicate withdrawal with insufficient funds does not). -/
theorem duplicate_txid_amended_witness :
    lookupTx sDup.transfers 0 = some (Transaction.deposit 1 100)
    ∧ (clientOrDefault sDup 1).frozen = false
    ∧ (sDup.handle (.Deposit 1 0 5)).2 = some (.DuplicateTxId 0)
    ∧ (clientOrDefault sDup 1).available < 200
    ∧ (sDup.handle (.Withdrawal 1 0 200)).2 = none
    ∧ (sDup.handle (.Dispute 1 0)).2 = none
    ∧ (sDup.handle (.Resolve 1 0)).2 = none
    ∧ (sDup.handle (.Chargeback 1 0)).2 = none := by
  have hthm := duplicate_txid_amended sDup 1 0 5 (Transaction.deposit 1 100)
  have hthm2 := duplicate_txid_amended sDup 1 0 200 (Transaction.deposit 1 100)
  exact ⟨rfl, rfl, hthm.1 rfl rfl, by decide,
    hthm2.2.2.2.1 (Or.inr (by decide)),
    hthm.2.2.2.2.1, hthm.2.2.2.2.2.1, hthm.2.2.2.2.2.2⟩

/-- Claim C4 counterexample: the insufficient-funds rejection of a withdrawal
by a previously unknown client returns `Ok` but does **not** leave the client
store exactly as before: `entry(client).or_default()` has inserted a default
account record for the client. -/
theorem business_rejection_mutates_store :
    (State.new.handle (.Withdrawal 2 0 7)).2 = none
    ∧ State.new.client_states 2 = none
    ∧ (State.new.handle (.Withdrawal 2 0 7)).1.client_states 2 = some ClientState.default := by
  refine ⟨?_, rfl, ?_⟩
  · norm_num [State.handle, State.new, clientOrDefault, updateClient, ClientState.apply,
      ClientState.default]
  · norm_num [State.handle, State.new, clientOrDefault, updateClient, ClientState.apply,
      ClientState.default]

/-- Claim C4 (amended): every business-rule rejection returns `Ok` and leaves
the ledger and every existing client state unchanged; the only store change
is that a rejected deposit/withdrawal materialises a default account record
for a previously unknown client (for an already-known client the state is
exactly unchanged). -/
theorem business_rejections_silent (s : State) (e : Event)
    (hB : BusinessRejected s e) :
    s.handle e = (rejectionResult s e, none)
    ∧ ∀ (c : ClientId), (s.client_states c).isSome → (rejectionResult s e).client_states c = s.client_states c := by
  have hmain : s.handle e = (rejectionResult s e, none) := by
    cases e with
    | Deposit c tx a =>
        simp only [BusinessRejected] at hB
        rw [handle_deposit_eq_error s c tx a .ClientFrozen (apply_frozen _ _ hB)]
        rfl
    | Withdrawal c tx a =>
        simp only [BusinessRejected] at hB
        have happ : ∃ err, (clientOrDefault s c).apply (.Withdrawal a) = .error err := by
          rcases hB with hf | hlt
          · exact ⟨.ClientFrozen, apply_frozen _ _ hf⟩
          · by_cases hf : (clientOrDefault s c).frozen = true
            · exact ⟨.ClientFrozen, apply_frozen _ _ hf⟩
            · exact ⟨.InsufficientFunds, by simp [ClientState.apply, hf, hlt]⟩
        obtain ⟨err, happ⟩ := happ
        rw [handle_withdrawal_eq_error s c tx a err happ]
        rfl
    | Dispute c tx =>
        cases hl : lookupTx s.transfers tx with
        | none => rw [handle_dispute_of_lookup_none s c tx hl]; rfl
        | some t =>
            simp only [BusinessRejected, hl] at hB
            rcases hB with hc | hd | ⟨st, hs, hfail⟩
            · rw [handle_dispute_of_guard s c tx t hl (Or.inl (Ne.symm hc))]; rfl
            · rw [handle_dispute_of_guard s c tx t hl (Or.inr hd)]; rfl
            · have happ : ∃ err, st.apply (disputeTransition t) = .error err := by
                rcases hfail with hf | ⟨hk, hlt⟩
                · exact ⟨.ClientFrozen, apply_frozen _ _ hf⟩
                · by_cases hf : st.frozen = true
                  · exact ⟨.ClientFrozen, apply_frozen _ _ hf⟩
                  · refine ⟨.InsufficientFunds, ?_⟩
                    rw [disputeTransition, hk]
                    simp [ClientState.apply, hf, hlt]
              obtain ⟨err, happ⟩ := happ
              rw [handle_dispute_of_apply_error s c tx t st err hl hs happ]
              rfl
    | Resolve c tx =>
        cases hl : lookupTx s.transfers tx with
        | none => rw [handle_resolve_of_lookup_none s c tx hl]; rfl
        | some t =>
            simp only [BusinessRejected, hl] at hB
            rcases hB with hc | hd | ⟨st, hs, hf⟩
            · rw [handle_resolve_of_guard s c tx t hl (Or.inl (Ne.symm hc))]; rfl
            · rw [handle_resolve_of_guard s c tx t hl (Or.inr hd)]; rfl
            · by_cases hcc : c = t.client
              · rw [hcc] at hs
                rw [handle_resolve_of_apply_error s c tx t st .ClientFrozen hl hs
                  (apply_frozen _ _ hf)]
                rfl
              · rw [handle_resolve_of_guard s c tx t hl (Or.inl hcc)]; rfl
    | Chargeback c tx =>
        cases hl : lookupTx s.transfers tx with
        | none => rw [handle_chargeback_of_lookup_none s c tx hl]; rfl
        | some t =>
            simp only [BusinessRejected, hl] at hB
            rcases hB with hk | hc | ⟨st, hs, hf⟩
            · rw [handle_chargeback_of_withdrawal_kind s c tx t hl hk]; rfl
            · rw [handle_chargeback_of_mismatch s c tx t hl (Ne.symm hc)]; rfl
            · rw [handle_chargeback_of_apply_error s c tx t st .ClientFrozen hl hs
                (apply_frozen _ _ hf)]
              rfl
  refine ⟨hmain, fun c hc => ?_⟩
  cases e with
  | Deposit c' tx a =>
      by_cases hcc : c = c'
      · subst hcc
        obtain ⟨st, hst⟩ := Option.isSome_iff_exists.mp hc
        simp [rejectionResult, materializeClient, updateClient, clientOrDefault, hst]
      · simp [rejectionResult, materializeClient, updateClient, hcc]
  | Withdrawal c' tx a =>
      by_cases hcc : c = c'
      · subst hcc
        obtain ⟨st, hst⟩ := Option.isSome_iff_exists.mp hc
        simp [rejectionResult, materializeClient, updateClient, clientOrDefault, hst]
      · simp [rejectionResult, materializeClient, updateClient, hcc]
  | Dispute c' tx => rfl
  | Resolve c' tx => rfl
  | Chargeback c' tx => rfl

/-- Witness for `business_rejections_silent`: an insufficient-funds
withdrawal rejection on the empty state, and flag-state rejections on
`sDup` whose client store is untouched. -/
theorem business_rejections_silent_witness :
    BusinessRejected State.new (.Withdrawal 2 0 7)
    ∧ State.new.handle (.Withdrawal 2 0 7) = (rejectionResult State.new (.Withdrawal 2 0 7), none)
    ∧ BusinessRejected sDup (.Resolve 1 0)
    ∧ sDup.handle (.Resolve 1 0) = (rejectionResult sDup (.Resolve 1 0), none)
    ∧ (sDup.client_states 1).isSome
    ∧ (rejectionResult sDup (.Resolve 1 0)).client_states 1 = sDup.client_states 1 := by
  have h1 := business_rejections_silent State.new (.Withdrawal 2 0 7) (Or.inr (by decide))
  have h2 : BusinessRejected sDup (.Resolve 1 0) := by
    simp only [BusinessRejected]
    rw [show lookupTx sDup.transfers 0 = some (Transaction.deposit 1 100) from rfl]
    exact Or.inr (Or.inl rfl)
  have h3 := business_rejections_silent sDup (.Resolve 1 0) h2
  exact ⟨Or.inr (by decide), h1.1, h2, h3.1, rfl, h3.2 1 rfl⟩

/-- Claim C1 (bug evaluation): a client whose only event across the whole run
is a withdrawal with insufficient funds — a dropped event that creates no
ledger record and reports no error — nevertheless appears in the final
client-state table with a default (zero-balance) record, because
`entry(client).or_default()` inserts the entry before the transition is
checked. -/
theorem dropped_only_client_still_appears :
    (runEvents State.new [.Withdrawal 1 0 5]).2 = none
    ∧ (runEvents State.new [.Withdrawal 1 0 5]).1.transfers = []
    ∧ (runEvents State.new [.Withdrawal 1 0 5]).1.client_states 1
        = some ClientState.default := by
  refine ⟨?_, ?_, ?_⟩ <;>
    norm_num [runEvents, State.handle, State.new, clientOrDefault, updateClient,
      ClientState.apply, ClientState.default]

/-- Claim C7: for every event sequence whose deposit and withdrawal amounts
are all non-negative, every client state in the table produced by running
the engine from the empty state satisfies `0 ≤ available` and `0 ≤ held`. -/
theorem reachable_balances_nonneg (evs : List Event)
    (he : ∀ e ∈ evs, EventAmountsNonneg e) (c : ClientId) (st : ClientState)
    (h : (runEvents State.new evs).1.client_states c = some st) :
    0 ≤ st.available ∧ 0 ≤ st.held := by
  obtain ⟨hA, hAv, hH⟩ := fundsInv_runEvents State.new evs fundsInv_new he
  have hcd : clientOrDefault (runEvents State.new evs).1 c = st :=
    clientOrDefault_eq_of_some h
  constructor
  · have hv := hAv c
    rw [hcd] at hv
    exact hv
  · have h1 := hH c
    have h2 := heldSum_nonneg c hA
    rw [hcd] at h1
    linarith

/-- Witness for `reachable_balances_nonneg` on the deposit / withdrawal /
dispute-withdrawal scenario. -/
theorem reachable_balances_nonneg_witness :
    (∀ e ∈ ([.Deposit 0 0 100, .Withdrawal 0 1 50, .Dispute 0 1] : List Event),
        EventAmountsNonneg e)
    ∧ (runEvents State.new
          [.Deposit 0 0 100, .Withdrawal 0 1 50, .Dispute 0 1]).1.client_states 0
        = some ⟨false, 50, 50⟩
    ∧ (0 ≤ (⟨false, 50, 50⟩ : ClientState).available
        ∧ 0 ≤ (⟨false, 50, 50⟩ : ClientState).held) := by
  have he : ∀ e ∈ ([.Deposit 0 0 100, .Withdrawal 0 1 50, .Dispute 0 1] : List Event),
      EventAmountsNonneg e := by
    intro e he'
    simp only [List.mem_cons, List.not_mem_nil, or_false] at he'
    rcases he' with rfl | rfl | rfl <;> norm_num [EventAmountsNonneg]
  have hst : (runEvents State.new
      [.Deposit 0 0 100, .Withdrawal 0 1 50, .Dispute 0 1]).1.client_states 0
      = some ⟨false, 50, 50⟩ := by
    norm_num [runEvents, State.handle, clientOrDefault, updateClient, lookupTx, insertTx,
      setDispute, ClientState.apply, State.new, ClientState.default, Transaction.deposit,
      Transaction.withdrawal]
  exact ⟨he, hst,
    reachable_balances_nonneg [.Deposit 0 0 100, .Withdrawal 0 1 50, .Dispute 0 1]
      he 0 ⟨false, 50, 50⟩ hst⟩
